import Mathlib

/-!
Shallow embedding of the law-mcp-server transport and authorization layer.

The definitions below are translated from the TypeScript sources:
  - `src/rpc.ts`   — `JsonRpcRouter`
  - `src/mcp.ts`   — `StdioJsonRpcServer`
  - `src/sse.ts`   — `SSEJsonRpcServer` (legacy event-stream transport)
  - `src/http.ts`  — `StreamableHttpServer` (session-based streaming transport)
  - `src/oauth.ts` — `OAuthServer` (OAuth 2.1 subset)
  - `src/index.ts` — startup wiring and handler registration

JavaScript builtins that the sources call (crypto digests, base64 codecs,
`JSON.parse` / `JSON.stringify`, the WHATWG `URL` constructor) are external
collaborators; they are passed in as explicit function parameters so that
every theorem quantifies over their behavior and every witness can pick a
concrete instance.
-/

namespace LawMcp

/-- JSON values as produced by `JSON.parse`.  Numbers are modelled as
integers, which covers every numeric value appearing in the verified
code paths (JSON-RPC ids, epoch timestamps, status codes). -/
inductive Json where
  | null : Json
  | bool (b : Bool) : Json
  | num (n : Int) : Json
  | str (s : String) : Json
  | arr (elems : List Json) : Json
  | obj (fields : List (String × Json)) : Json
deriving Repr

/-- `typeof v === "string"`. -/
def Json.isStr : Json → Bool
  | .str _ => true
  | _ => false

/-- `typeof v === "number"`. -/
def Json.isNum : Json → Bool
  | .num _ => true
  | _ => false

/-- The string payload of a `Json.str`, defaulting to `""`. -/
def Json.asStr : Json → String
  | .str s => s
  | _ => ""

/-- JavaScript property access `v[k]` on a parsed JSON value, for values on
which it does not throw: `none` is `undefined` (absent key, or a primitive /
array receiver without such a property).  Access on `null` throws instead;
callers model that case explicitly. -/
def Json.getProp : Json → String → Option Json
  | .obj fields, k => fields.lookup k
  | _, _ => none

/-- JavaScript falsiness of a `JSON.parse` result (the `!parsed` guard in
each transport's `parseMessage`). -/
def Json.falsy : Json → Bool
  | .null => true
  | .bool b => !b
  | .num n => n == 0
  | .str s => s == ""
  | _ => false

/-! ### JSON-RPC data model (src/rpc.ts) -/

/-- `JsonRpcError` from src/rpc.ts. -/
structure JsonRpcError where
  code : Int
  message : String
deriving Repr

/-- `JsonRpcResponse` from src/rpc.ts (the `jsonrpc: "2.0"` constant field is
implicit). -/
structure JsonRpcResponse where
  id : Json
  result : Option Json
  error : Option JsonRpcError
deriving Repr

/-- An incoming JSON-RPC message as the router receives it.  The router
validates `jsonrpc` and `method` itself, so both are kept as raw JSON
values; `id := none` models an absent (`undefined`) id, while
`some Json.null` is an explicit null id. -/
structure JsonRpcMessage where
  jsonrpc : Json
  method : Json
  id : Option Json
  params : Option Json
deriving Repr

/-- A registered handler: `params -> result`, where a thrown error is an
`Except.error` carrying the error's message text. -/
def Handler : Type := Json → Except String Json

/-- The router's `handlers` map (`Map<string, RequestHandler>`). -/
def Registry : Type := String → Option Handler

/-- The empty handler map. -/
def Registry.empty : Registry := fun _ => none

/-- `JsonRpcRouter.register`: `Map.set` — last registration wins. -/
def Registry.register (r : Registry) (method : String) (h : Handler) : Registry :=
  fun m => if m = method then some h else r m

/-- `request.params ?? {}` — nullish coalescing to an empty object. -/
def paramsOrEmpty : Option Json → Json
  | none => .obj []
  | some .null => .obj []
  | some p => p

/-- Response construction for the error envelopes. -/
def errorResponse (i : Json) (code : Int) (msg : String) : JsonRpcResponse :=
  ⟨i, none, some ⟨code, msg⟩⟩

/-- Response construction for the success envelope. -/
def okResponse (i : Json) (result : Json) : JsonRpcResponse :=
  ⟨i, some result, none⟩

/-- Dispatch shared by the validation-passed path of `JsonRpcRouter.handle`:
look the method up, invoke the handler on `params ?? {}`, and build the
envelope (or `null` for an id-less message). -/
def dispatchMethod (r : Registry) (m : String) (id : Option Json)
    (params : Option Json) : Option JsonRpcResponse :=
  match r m with
  | none => id.map (errorResponse · (-32601) "Method not found")
  | some h =>
    match h (paramsOrEmpty params) with
    | .ok value => id.map (okResponse · value)
    | .error e => id.map (errorResponse · (-32000) e)

/-- `JsonRpcRouter.handle` from src/rpc.ts: envelope validation
(`request.jsonrpc !== "2.0" || typeof request.method !== "string"`), handler
lookup, invocation, and response construction.  Returns `none` exactly when
the code returns `null` (no response frame). -/
def JsonRpcRouter.handle (r : Registry) (req : JsonRpcMessage) :
    Option JsonRpcResponse :=
  match req.jsonrpc, req.method with
  | .str "2.0", .str m => dispatchMethod r m req.id req.params
  | _, _ => req.id.map (errorResponse · (-32600) "Invalid Request")

/-! ### Message parsing shared by the transports

`src/mcp.ts`, `src/sse.ts` and `src/http.ts` each contain a character-for-
character identical private `parseMessage`: `JSON.parse` the text, then
reject falsy values, a `jsonrpc` field other than `"2.0"`, and a non-string
`method`.  The model starts from the `JSON.parse` result (a `Json` value);
a line/body that is not valid JSON at all corresponds to no call at all
having a `some` result, i.e. the `JSON.parse`-throw path is the same `none`. -/

/-- The common `parseMessage` applied to a `JSON.parse` result. -/
def parseMessage (j : Json) : Option JsonRpcMessage :=
  if j.falsy then none
  else
    match j.getProp "jsonrpc", j.getProp "method" with
    | some (.str "2.0"), some (.str m) =>
      some ⟨.str "2.0", .str m, j.getProp "id", j.getProp "params"⟩
    | _, _ => none

/-! ### Stdio transport (src/mcp.ts)

`StdioJsonRpcServer` holds its own `handlers` map and dispatches each parsed
line against it — it does not delegate to `JsonRpcRouter`.  Its class
declares no constructor, so the `router` argument passed by
`src/index.ts` (`new StdioJsonRpcServer(router)`) is ignored and its own
map stays empty: `index.ts` registers every method on the shared router and
never calls the stdio server's own `register`. -/

/-- The `rl.on("line", ...)` body of `StdioJsonRpcServer.start`, given the
server's own `handlers` map and the `JSON.parse` result of one input line.
The return value is the payload passed to `this.send` (`none` = nothing
written). -/
def StdioJsonRpcServer.handleLine (handlers : Registry) (line : Json) :
    Option JsonRpcResponse :=
  match parseMessage line with
  | none => none
  | some msg =>
    match handlers msg.method.asStr with
    | none => msg.id.map (errorResponse · (-32601) "Method not found")
    | some h =>
      match h (paramsOrEmpty msg.params) with
      | .ok value => msg.id.map (okResponse · value)
      | .error e => msg.id.map (errorResponse · (-32000) e)

/-! ### Startup wiring (src/index.ts) -/

/-- The `ping` handler registered in src/index.ts: `async () => ({})`. -/
def pingHandler : Handler := fun _ => .ok (.obj [])

/-- The `notifications/initialized` handler: `async () => {}` — it returns
`undefined`; the value is modelled as `null` (it is never serialized on any
claim's path). -/
def initializedHandler : Handler := fun _ => .ok .null

/-- The `initialize` handler registered in src/index.ts, parameterized by the
package identity and usage instructions it embeds. -/
def initializeHandler (serverName serverVersion instructions : String) :
    Handler := fun params =>
  let protocolVersion :=
    match params.getProp "protocolVersion" with
    | some (.str v) => v
    | _ => "2024-06-17"
  .ok (.obj
    [ ("protocolVersion", .str protocolVersion)
    , ("serverInfo", .obj
        [("name", .str serverName), ("version", .str serverVersion)])
    , ("instructions", .str instructions)
    , ("capabilities", .obj [("tools", .obj [])])
    ])

/-- The shared router's registry as populated at startup by src/index.ts,
in registration order.  The `tools/list` and `tools/call` handlers close
over the tool layer (an excluded collaborator), so they are parameters. -/
def indexRegistry (serverName serverVersion instructions : String)
    (toolsList toolsCall : Handler) : Registry :=
  (((((Registry.empty.register "initialize"
      (initializeHandler serverName serverVersion instructions)).register
      "notifications/initialized" initializedHandler).register
      "ping" pingHandler).register
      "tools/list" toolsList).register
      "tools/call" toolsCall)

/-- The stdio server's own handler map at startup: src/index.ts never calls
`StdioJsonRpcServer.register`, so the map holds no entries. -/
def stdioStartupHandlers : Registry := Registry.empty

/-! ### Legacy event-stream transport (src/sse.ts) -/

/-- The headers of an incoming HTTP request that the legacy transport's
routing inspects.  Node delivers `authorization` and `x-api-key` as single
strings when present once (the `Array.isArray` branch for a repeated
`x-api-key` header takes the first element and is not modelled). -/
structure SseHttpRequest where
  method : String
  url : String
  authorization : Option String
  xApiKey : Option String

/-- `\s` of JavaScript regexes, restricted to the ASCII whitespace actually
reachable in an HTTP header value. -/
def isJsSpace (c : Char) : Bool :=
  c = ' ' ∨ c = '\t' ∨ c = '\n' ∨ c = '\r' ∨ c = '\x0b' ∨ c = '\x0c'

/-- JavaScript `s.startsWith(pre)`. -/
def jsStartsWith (s pre : String) : Bool :=
  pre.toList.isPrefixOf s.toList

/-- JavaScript `s.trim()` (whitespace set restricted as in `isJsSpace`). -/
def jsTrim (s : String) : String :=
  (((s.toList.dropWhile isJsSpace).reverse.dropWhile isJsSpace).reverse).asString

/-- Accumulator loop behind `jsSplitChar`. -/
def jsSplitCharGo (sep : Char) : List Char → List Char → List String
  | [], acc => [acc.reverse.asString]
  | c :: rest, acc =>
    if c = sep then acc.reverse.asString :: jsSplitCharGo sep rest []
    else jsSplitCharGo sep rest (c :: acc)

/-- JavaScript `s.split(sep)` for a single-character separator — every
piece is kept, including empty ones. -/
def jsSplitChar (sep : Char) (s : String) : List String :=
  jsSplitCharGo sep s.toList []

/-- A JavaScript line terminator (not matched by `.`). -/
def isLineTerm (c : Char) : Bool :=
  c = '\n' ∨ c = '\r' ∨ c.toNat = 0x2028 ∨ c.toNat = 0x2029

/-- The capture group of `/^Bearer\s+(.+)$/i` applied to the characters
after the case-insensitive `Bearer` literal: the regex backtracks over the
greedy `\s+`, so the group is the remainder after the largest whitespace
prefix that still leaves a nonempty, line-terminator-free tail. -/
def bearerGroup (rest : List Char) : Option (List Char) :=
  let k := (rest.takeWhile isJsSpace).length
  ((List.range' 1 k).reverse).findSome? fun j =>
    let tail := rest.drop j
    if tail ≠ [] ∧ tail.all (fun c => ¬ isLineTerm c) then some tail else none

/-- `authHeader.match(/^Bearer\s+(.+)$/i)`, returning the capture group. -/
def bearerMatch (s : String) : Option String :=
  let cs := s.toList
  if (cs.take 6).map Char.toLower = "bearer".toList then
    (bearerGroup (cs.drop 6)).map List.asString
  else none

/-- `extractToken` (identical in src/sse.ts and src/http.ts): a trimmed
`Bearer` capture from `Authorization` when it matches, otherwise the trimmed
`x-api-key` header, otherwise `null`. -/
def extractToken (authorization xApiKey : Option String) : Option String :=
  match authorization.bind bearerMatch with
  | some tok => some (jsTrim tok)
  | none => xApiKey.map jsTrim

/-- `SSEJsonRpcServer.isAuthorized`:
`token !== null && token === this.options.apiKey`. -/
def sseAuthorized (apiKey : String) (req : SseHttpRequest) : Bool :=
  match extractToken req.authorization req.xApiKey with
  | some tok => tok = apiKey
  | none => false

/-- Which branch of the `createServer` callback in `SSEJsonRpcServer.start`
serves a request. -/
inductive SseRoute where
  | corsPreflight
  | unauthorized
  | events
  | messages
  | health
  | notFound
deriving Repr, DecidableEq

/-- The routing of `SSEJsonRpcServer.start`, in the source's order: CORS
preflight, then the authorization gate, then `/events`, `/messages`,
`/health`, and 404. -/
def SSEJsonRpcServer.route (apiKey : String) (req : SseHttpRequest) :
    SseRoute :=
  if req.method = "OPTIONS" then .corsPreflight
  else if ¬ sseAuthorized apiKey req then .unauthorized
  else if req.method = "GET" ∧ jsStartsWith req.url "/events" then .events
  else if req.method = "POST" ∧ jsStartsWith req.url "/messages" then .messages
  else if req.method = "GET" ∧ req.url = "/health" then .health
  else .notFound

/-- The immediate JSON reply (status code and body) the legacy transport
writes for the routes that answer synchronously with `writeJson`;
`/events` (a long-lived stream) and `/messages` (handled by
`SSEJsonRpcServer.handleMessage`) reply through their dedicated handlers. -/
def SSEJsonRpcServer.immediateReply : SseRoute → Option (Nat × Json)
  | .unauthorized => some (401, .obj [("error", .str "Unauthorized")])
  | .health => some (200, .obj [("status", .str "ok")])
  | .notFound => some (404, .obj [("error", .str "Not Found")])
  | .corsPreflight => some (204, .obj [])
  | _ => none

/-- Result of `SSEJsonRpcServer.handleMessage` on a `POST /messages` body:
the HTTP reply written, plus the response frame broadcast to every open
`/events` stream (`none` when the router produced `null`). -/
structure SseMessageResult where
  status : Nat
  body : Json
  broadcast : Option JsonRpcResponse
deriving Repr

/-- `SSEJsonRpcServer.handleMessage`, applied to the `JSON.parse` result of
the request body. -/
def SSEJsonRpcServer.handleMessage (r : Registry) (body : Json) :
    SseMessageResult :=
  match parseMessage body with
  | none => ⟨400, .obj [("error", .str "Invalid JSON-RPC request")], none⟩
  | some msg =>
    ⟨202, .obj [("status", .str "accepted")], JsonRpcRouter.handle r msg⟩

/-! ### Session-based streaming transport (src/http.ts)

`StreamableHttpServer.handlePost` parses the body, runs the session
bookkeeping (`initialize` unconditionally creates a fresh session; every
other method requires a `Mcp-Session-Id` header naming a live session),
hands the message to the shared router, and frames the reply.  The session
registry is modelled by its key set (`String → Bool`): the `Session`
values only add the optional push-channel handle, which the POST path never
reads. -/

/-- The body of the HTTP reply `handlePost` writes. -/
inductive PostBody where
  | empty
  | json (j : Json)
  | sseFrame (resp : JsonRpcResponse)
deriving Repr

/-- An HTTP reply of `handlePost`, plus whether `router.handle` was ever
invoked on the way to it. -/
structure PostResult where
  status : Nat
  sessionHeader : Option String
  body : PostBody
  routerInvoked : Bool
deriving Repr

/-- `JSON.stringify(response)` of a router response, as a JSON value: the
`result` / `error` keys are present exactly when the fields are set. -/
def JsonRpcResponse.toJson (resp : JsonRpcResponse) : Json :=
  .obj ([("jsonrpc", .str "2.0"), ("id", resp.id)]
    ++ (match resp.result with
        | some v => [("result", v)]
        | none => [])
    ++ (match resp.error with
        | some e => [("error", .obj
            [("code", .num e.code), ("message", .str e.message)])]
        | none => []))

/-- JavaScript `j === s` for a string literal on the right. -/
def jsonStrEq (j : Json) (s : String) : Bool :=
  match j with
  | .str t => t = s
  | _ => false

/-- The tail of `handlePost` after the session bookkeeping: hand the message
to the shared router, then frame the reply — 202 with an empty body for a
`null` router result, otherwise 200 as a single SSE frame or a plain JSON
body according to the `Accept` header.  Every reply carries the session id
header. -/
def framePostReply (r : Registry) (msg : JsonRpcMessage) (acceptSse : Bool)
    (sid : String) (sessions' : String → Bool) :
    PostResult × (String → Bool) :=
  match JsonRpcRouter.handle r msg with
  | none => (⟨202, some sid, .empty, true⟩, sessions')
  | some resp =>
    if acceptSse then
      (⟨200, some sid, .sseFrame resp, true⟩, sessions')
    else
      (⟨200, some sid, .json resp.toJson, true⟩, sessions')

/-- The session bookkeeping of `handlePost` for a parsed message:
`message.method === "initialize"` unconditionally registers a fresh
session; any other method requires the `mcp-session-id` header (400) to
name a live session (404). -/
def handleParsedPost (r : Registry) (sessions : String → Bool)
    (freshId : String) (msg : JsonRpcMessage) (sessionHeader : Option String)
    (acceptSse : Bool) : PostResult × (String → Bool) :=
  if jsonStrEq msg.method "initialize" then
    framePostReply r msg acceptSse freshId
      (fun s => if s = freshId then true else sessions s)
  else
    match sessionHeader with
    | none =>
      (⟨400, none,
        .json (.obj [("error", .str "mcp-session-id header is required")]),
        false⟩, sessions)
    | some sid =>
      if sessions sid then framePostReply r msg acceptSse sid sessions
      else
        (⟨404, none, .json (.obj [("error", .str "Session not found")]),
          false⟩, sessions)

/-- `StreamableHttpServer.handlePost`, applied to the `JSON.parse` result of
the body, the `mcp-session-id` request header, whether the `Accept` header
includes `text/event-stream`, and a fresh `randomUUID()` value.  Returns the
reply together with the session registry after the call. -/
def StreamableHttpServer.handlePost (r : Registry) (sessions : String → Bool)
    (freshId : String) (body : Json) (sessionHeader : Option String)
    (acceptSse : Bool) : PostResult × (String → Bool) :=
  match parseMessage body with
  | none =>
    (⟨400, none, .json (.obj [("error", .str "Invalid JSON-RPC request")]),
      false⟩, sessions)
  | some msg => handleParsedPost r sessions freshId msg sessionHeader acceptSse

/-! ### OAuth 2.1 authorization server (src/oauth.ts)

The JavaScript builtins the OAuth code calls are bundled into one record of
primitives; every theorem quantifies over them. -/

/-- External JavaScript builtins used by src/oauth.ts and src/http.ts. -/
structure JsPrimitives where
  /-- `createHash("sha256").update(v).digest("base64url")`. -/
  sha256Base64url : String → String
  /-- `createHmac("sha256", key).update(data).digest("base64url")`,
  as `key → data → digest`. -/
  hmacSha256Base64url : String → String → String
  /-- `Buffer.from(s).toString("base64url")`. -/
  base64urlEncode : String → String
  /-- `Buffer.from(s, "base64url").toString("utf8")`. -/
  base64urlDecode : String → String
  /-- `Buffer.from(s, "base64").toString("utf8")`. -/
  base64Decode : String → String
  /-- `JSON.stringify` on a value. -/
  jsonStringify : Json → String
  /-- `JSON.parse` on a string; `none` models a thrown `SyntaxError`. -/
  jsonParse : String → Option Json
  /-- `new URL(uri)` followed by `url.searchParams.set` for each given pair
  and `url.toString()`; `none` models the `URL` constructor throwing on an
  invalid URL. -/
  urlWithParams : String → List (String × String) → Option String

/-- `OAuthServerOptions` from src/oauth.ts. -/
structure OAuthServerOptions where
  issuerUrl : String
  apiKey : String

/-- `RegisteredClient` from src/oauth.ts. -/
structure RegisteredClient where
  clientId : String
  clientSecret : String
  redirectUris : List String

/-- `PendingCode` from src/oauth.ts.  `clientId`, `redirectUri` and
`codeChallenge` hold whatever the submitted form carried, which the types
annotate as `string` but which is `undefined` when the field was absent —
hence `Option String`.  `codeChallengeMethod` has the `?? "S256"` default
applied at creation. -/
structure PendingCode where
  clientId : Option String
  redirectUri : Option String
  codeChallenge : Option String
  codeChallengeMethod : String
  expiresAt : Int

/-- The two in-memory maps of `OAuthServer` (`clients`, `codes`), modelled
as partial functions exactly as `Map.get` / `Map.set` / `Map.delete` use
them. -/
structure OAuthState where
  clients : String → Option RegisteredClient
  codes : String → Option PendingCode

/-- `this.codes.delete(code)` where `code` may be `undefined` (deleting the
`undefined` key is a no-op on a string-keyed map). -/
def OAuthState.deleteCode (st : OAuthState) (code : Option String) :
    OAuthState :=
  match code with
  | none => st
  | some c => { st with codes := fun x => if x = c then none else st.codes x }

/-- `this.codes.set(code, entry)`. -/
def OAuthState.setCode (st : OAuthState) (code : String) (entry : PendingCode) :
    OAuthState :=
  { st with codes := fun x => if x = code then some entry else st.codes x }

/-- `OAuthServer.isTrustedRedirectUri`. -/
def isTrustedRedirectUri (uri : String) : Bool :=
  jsStartsWith uri "https://claude.ai/" || jsStartsWith uri "http://localhost"
    || jsStartsWith uri "http://127.0.0.1"

/-- `OAuthServer.verifyPkce`.  The stored challenge may be `undefined`
(`Option String`); the `!verifier || !challenge` falsiness guard rejects
both that and empty strings. -/
def verifyPkce (prims : JsPrimitives) (verifier : String)
    (challenge : Option String) (method : String) : Bool :=
  match challenge with
  | none => false
  | some c =>
    if verifier = "" ∨ c = "" then false
    else if method = "S256" then prims.sha256Base64url verifier = c
    else verifier = c

/-- `OAuthServer.signJwt`: base64url header and payload, HMAC-signed with
the shared API key. -/
def signJwt (prims : JsPrimitives) (opts : OAuthServerOptions)
    (payload : Json) : String :=
  let hdr := prims.base64urlEncode
    (prims.jsonStringify (.obj [("alg", .str "HS256"), ("typ", .str "JWT")]))
  let bdy := prims.base64urlEncode (prims.jsonStringify payload)
  let sig := prims.hmacSha256Base64url opts.apiKey (hdr ++ "." ++ bdy)
  hdr ++ "." ++ bdy ++ "." ++ sig

/-- `OAuthServer.issueToken`, with `nowSec = Math.floor(Date.now() / 1000)`
passed in. -/
def issueToken (prims : JsPrimitives) (opts : OAuthServerOptions)
    (sub : String) (nowSec : Int) : String :=
  signJwt prims opts (.obj
    [ ("iss", .str opts.issuerUrl)
    , ("aud", .str (opts.issuerUrl ++ "/mcp"))
    , ("sub", .str sub)
    , ("iat", .num nowSec)
    , ("exp", .num (nowSec + 3600))
    ])

/-- `OAuthServer.verifyJwt`, with `nowSec = Math.floor(Date.now() / 1000)`
passed in: split into three parts, recompute the HMAC, then check `exp`
(when present and numeric) and the audience.  A `JSON.parse` throw, or the
property access throwing on a `null` payload, lands in the `catch` and
returns `false`. -/
def verifyJwt (prims : JsPrimitives) (opts : OAuthServerOptions)
    (token : String) (nowSec : Int) : Bool :=
  match jsSplitChar '.' token with
  | [hdr, bdy, sig] =>
    if sig ≠ prims.hmacSha256Base64url opts.apiKey (hdr ++ "." ++ bdy) then
      false
    else
      match prims.jsonParse (prims.base64urlDecode bdy) with
      | none => false
      | some .null => false
      | some payload =>
        let audOk :=
          match payload.getProp "aud" with
          | some (.str a) => a = opts.issuerUrl ++ "/mcp"
          | _ => false
        match payload.getProp "exp" with
        | some (.num e) => if e < nowSec then false else audOk
        | _ => audOk
  | _ => false

/-- `OAuthServer.validateToken` — delegates to `verifyJwt`. -/
def validateToken (prims : JsPrimitives) (opts : OAuthServerOptions)
    (token : String) (nowSec : Int) : Bool :=
  verifyJwt prims opts token nowSec

/-- The authorization-form fields `processAuthorize` destructures from the
URL-encoded body (each `undefined` when absent).  Unknown extra form keys
are never read and are not modelled. -/
structure AuthForm where
  api_key : Option String
  client_id : Option String
  redirect_uri : Option String
  state : Option String
  code_challenge : Option String
  code_challenge_method : Option String

/-- The value `processAuthorize` produces: a redirect URL, an error message
with the re-render fields, or an uncaught JavaScript exception
(`isTrustedRedirectUri` dereferencing an absent `redirect_uri`, or the
`URL` constructor rejecting the submitted `redirect_uri`). -/
inductive AuthorizeResult where
  | redirect (url : String)
  | err (message : String) (fields : AuthForm)
  | jsThrow

/-- `OAuthServer.processAuthorize`, with the `randomBytes(32).toString("hex")`
code and `Date.now()` passed in.  Note the order of effects on the success
path: the code is stored in `this.codes` before `new URL(redirect_uri)`
runs, so a throwing `URL` constructor still leaves the minted code behind. -/
def processAuthorize (prims : JsPrimitives) (opts : OAuthServerOptions)
    (st : OAuthState) (form : AuthForm) (newCode : String) (now : Int) :
    AuthorizeResult × OAuthState :=
  if form.api_key ≠ some opts.apiKey then
    (.err "API キーが正しくありません" { form with api_key := some "" }, st)
  else
    let mint : AuthorizeResult × OAuthState :=
      let entry : PendingCode :=
        ⟨form.client_id, form.redirect_uri, form.code_challenge,
          form.code_challenge_method.getD "S256", now + 10 * 60 * 1000⟩
      let st' := st.setCode newCode entry
      match form.redirect_uri with
      | none => (.jsThrow, st')
      | some uri =>
        let params := [("code", newCode)] ++
          (match form.state with
           | some s => if s = "" then [] else [("state", s)]
           | none => [])
        match prims.urlWithParams uri params with
        | none => (.jsThrow, st')
        | some u => (.redirect u, st')
    match form.client_id.bind st.clients, form.redirect_uri with
    | none, none => (.jsThrow, st)
    | none, some uri =>
      if isTrustedRedirectUri uri then mint
      else
        (.err "クライアントが登録されていません"
          { form with api_key := some "" }, st)
    | some _, _ => mint

/-- How `StreamableHttpServer.handleOAuth` frames a `POST /oauth/authorize`
result: a `redirect` becomes a 302 with a `Location` header, an `err`
re-renders the form as a 400 `text/html; charset=utf-8` page, and a thrown
exception produces no reply (`none`). -/
def authorizePostReply : AuthorizeResult → Option (Nat × String)
  | .redirect _ => some (302, "Location")
  | .err _ _ => some (400, "text/html; charset=utf-8")
  | .jsThrow => none

/-- The token-endpoint form fields `exchangeToken` reads from the
URL-encoded body (each `undefined` when absent). -/
structure TokenRequest where
  grant_type : Option String
  code : Option String
  redirect_uri : Option String
  client_id : Option String
  client_secret : Option String
  code_verifier : Option String

/-- The JSON value `exchangeToken` returns. -/
inductive TokenResult where
  | err (e : String)
  | token (accessToken : String) (tokenType : String) (expiresIn : Int)

/-- `decoded.indexOf(":")` followed by the two slices, for the HTTP Basic
credential split. -/
def splitAtFirstColon (s : String) : Option (String × String) :=
  match s.toList.findIdx? (· = ':') with
  | none => none
  | some i => some ((s.toList.take i).asString, (s.toList.drop (i + 1)).asString)

/-- `OAuthServer.exchangeToken`, with `Date.now()` (milliseconds) passed in
as `now`.  Returns the JSON reply and the state after the call. -/
def exchangeToken (prims : JsPrimitives) (opts : OAuthServerOptions)
    (st : OAuthState) (body : TokenRequest)
    (authorizationHeader : Option String) (now : Int) :
    TokenResult × OAuthState :=
  let fromBody := (body.client_id.getD "", body.client_secret.getD "")
  let cred :=
    match authorizationHeader with
    | some a =>
      if jsStartsWith a "Basic " then
        match splitAtFirstColon (prims.base64Decode (a.toList.drop 6).asString) with
        | some pair => pair
        | none => fromBody
      else fromBody
    | none => fromBody
  let clientId := cred.1
  let clientSecret := cred.2
  if body.grant_type ≠ some "authorization_code" then
    (.err "unsupported_grant_type", st)
  else
    match st.codes (body.code.getD "") with
    | none => (.err "invalid_grant", st)
    | some entry =>
      if now > entry.expiresAt then
        (.err "invalid_grant", st.deleteCode body.code)
      else if entry.redirectUri ≠ body.redirect_uri then
        (.err "invalid_grant", st)
      else if entry.clientId ≠ some clientId then
        (.err "invalid_grant", st)
      else if ¬ verifyPkce prims (body.code_verifier.getD "")
          entry.codeChallenge entry.codeChallengeMethod then
        (.err "invalid_grant", st)
      else
        let secretMismatch : Bool :=
          match st.clients clientId with
          | some client =>
            clientSecret ≠ "" ∧ client.clientSecret ≠ clientSecret
          | none => false
        if secretMismatch then (.err "invalid_client", st)
        else
          (.token (issueToken prims opts clientId (now / 1000)) "Bearer" 3600,
            st.deleteCode body.code)

/-! ## Theorems -/

/-- The `JSON.parse` result of the line
`{"jsonrpc":"2.0","id":1,"method":"ping"}`. -/
def pingLine : Json :=
  .obj [("jsonrpc", .str "2.0"), ("id", .num 1), ("method", .str "ping")]

/-- A `dispatchMethod` call for an id-less message never yields a
response. -/
theorem dispatchMethod_id_none (r : Registry) (m : String)
    (params : Option Json) : dispatchMethod r m none params = none := by
  cases hr : r m with
  | none => simp [dispatchMethod, hr]
  | some h =>
    cases hres : h (paramsOrEmpty params) with
    | ok v => simp [dispatchMethod, hr, hres]
    | error e => simp [dispatchMethod, hr, hres]

/-- C1.  The entry point registers `ping` (returning `{}`) on the shared
`JsonRpcRouter`, and the router would answer the ping line with
`{"jsonrpc":"2.0","id":1,"result":{}}` — but `StdioJsonRpcServer`, as
started by src/index.ts, dispatches from its own never-populated handler
map (its class ignores the constructor argument), so the stdio transport
actually writes a `-32601 Method not found` error line instead of the
claimed empty result. -/
theorem c1_stdio_ping_divergence
    (serverName serverVersion instructions : String)
    (toolsList toolsCall : Handler) :
    parseMessage pingLine
      = some ⟨.str "2.0", .str "ping", some (.num 1), none⟩
    ∧ StdioJsonRpcServer.handleLine stdioStartupHandlers pingLine
      = some (errorResponse (.num 1) (-32601) "Method not found")
    ∧ JsonRpcRouter.handle
        (indexRegistry serverName serverVersion instructions toolsList toolsCall)
        ⟨.str "2.0", .str "ping", some (.num 1), none⟩
      = some (okResponse (.num 1) (.obj [])) := by
  refine ⟨rfl, rfl, rfl⟩

/-- C2 counterexample.  A `GET /health` request carrying no credential at
all is routed to the 401 `Unauthorized` branch by the legacy transport —
not to the 200 health branch the claim promises for every request. -/
theorem c2_health_counterexample :
    SSEJsonRpcServer.route "secret" ⟨"GET", "/health", none, none⟩
      = SseRoute.unauthorized
    ∧ SSEJsonRpcServer.immediateReply SseRoute.unauthorized
      = some (401, .obj [("error", .str "Unauthorized")])
    ∧ SSEJsonRpcServer.route "secret" ⟨"GET", "/health", none, none⟩
      ≠ SseRoute.health := by
  refine ⟨rfl, rfl, by decide⟩

/-- C2 (amended).  On the legacy event-stream transport the authorization
gate runs before routing, so `GET /health` answers 200 `{status:"ok"}`
exactly for requests whose credential matches the API key; without one the
reply is 401 `{error:"Unauthorized"}`. -/
theorem c2_health_behind_auth_gate (apiKey : String) (req : SseHttpRequest)
    (hm : req.method = "GET") (hu : req.url = "/health") :
    (sseAuthorized apiKey req = true →
      SSEJsonRpcServer.route apiKey req = SseRoute.health
      ∧ SSEJsonRpcServer.immediateReply (SSEJsonRpcServer.route apiKey req)
        = some (200, .obj [("status", .str "ok")]))
    ∧ (sseAuthorized apiKey req = false →
      SSEJsonRpcServer.route apiKey req = SseRoute.unauthorized
      ∧ SSEJsonRpcServer.immediateReply (SSEJsonRpcServer.route apiKey req)
        = some (401, .obj [("error", .str "Unauthorized")])) := by
  obtain ⟨m, u, a, x⟩ := req
  subst hm hu
  have hsw : jsStartsWith "/health" "/events" = false := by decide
  constructor
  · intro h
    rw [SSEJsonRpcServer.route.eq_def]
    simp [h, hsw, SSEJsonRpcServer.immediateReply]
  · intro h
    rw [SSEJsonRpcServer.route.eq_def]
    simp [h, SSEJsonRpcServer.immediateReply]

/-- C2 witness: a request presenting the API key in `x-api-key` reaches the
health branch. -/
theorem c2_health_behind_auth_gate_witness :
    SSEJsonRpcServer.route "k" ⟨"GET", "/health", none, some "k"⟩
      = SseRoute.health
    ∧ SSEJsonRpcServer.immediateReply
        (SSEJsonRpcServer.route "k" ⟨"GET", "/health", none, some "k"⟩)
      = some (200, .obj [("status", .str "ok")]) :=
  (c2_health_behind_auth_gate "k" ⟨"GET", "/health", none, some "k"⟩
    rfl rfl).1 (by decide)

/-- The router never answers a message without an id, whatever the
registry, the envelope, or the handler outcome. -/
theorem handle_id_none (r : Registry) (msg : JsonRpcMessage)
    (hid : msg.id = none) : JsonRpcRouter.handle r msg = none := by
  unfold JsonRpcRouter.handle
  split
  · rw [hid]; exact dispatchMethod_id_none _ _ _
  · rw [hid]; rfl

/-- C3.  A notification (absent `id`) produces no response from
`Router.handle` — also for unknown methods, invalid envelopes, and
throwing handlers — and hence no response frame from the transports: the
legacy transport broadcasts nothing (and answers the POST with its usual
202), and the streaming transport replies 202 with an empty body whenever
the session bookkeeping lets the message through. -/
theorem c3_notification_no_frame (r : Registry) (msg : JsonRpcMessage)
    (hid : msg.id = none) :
    JsonRpcRouter.handle r msg = none
    ∧ (∀ body : Json, parseMessage body = some msg →
        (SSEJsonRpcServer.handleMessage r body).broadcast = none
        ∧ (SSEJsonRpcServer.handleMessage r body).status = 202)
    ∧ (∀ (sessions : String → Bool) (freshId : String) (hdr : Option String)
        (acceptSse : Bool) (body : Json),
        parseMessage body = some msg →
        (msg.method = Json.str "initialize"
          ∨ ∃ sid, hdr = some sid ∧ sessions sid = true) →
        (StreamableHttpServer.handlePost r sessions freshId body hdr
            acceptSse).1.status = 202
        ∧ (StreamableHttpServer.handlePost r sessions freshId body hdr
            acceptSse).1.body = PostBody.empty) := by
  have hnull := handle_id_none r msg hid
  refine ⟨hnull, ?_, ?_⟩
  · intro body hparse
    unfold SSEJsonRpcServer.handleMessage
    rw [hparse]
    exact ⟨hnull, rfl⟩
  · intro sessions freshId hdr acceptSse body hparse hsess
    unfold StreamableHttpServer.handlePost
    rw [hparse]
    show (handleParsedPost r sessions freshId msg hdr acceptSse).1.status = 202
      ∧ (handleParsedPost r sessions freshId msg hdr acceptSse).1.body
        = PostBody.empty
    unfold handleParsedPost
    by_cases hb : jsonStrEq msg.method "initialize" = true
    · simp [hb, framePostReply, hnull]
    · rcases hsess with hinit | ⟨sid, hhdr, hlive⟩
      · rw [hinit] at hb
        exact absurd (by decide) hb
      · subst hhdr
        simp [hb, hlive, framePostReply, hnull]

/-- C3 witness: a `notifications/initialized`-style message with no id and
a throwing handler produces no frame on any transport. -/
theorem c3_notification_no_frame_witness :
    JsonRpcRouter.handle
      (Registry.empty.register "boom" (fun _ => .error "kaboom"))
      ⟨.str "2.0", .str "boom", none, none⟩ = none
    ∧ (SSEJsonRpcServer.handleMessage
        (Registry.empty.register "boom" (fun _ => .error "kaboom"))
        (.obj [("jsonrpc", .str "2.0"), ("method", .str "boom")])).broadcast
      = none := by
  have h := c3_notification_no_frame
    (Registry.empty.register "boom" (fun _ => .error "kaboom"))
    ⟨.str "2.0", .str "boom", none, none⟩ rfl
  exact ⟨h.1, (h.2.1 (.obj [("jsonrpc", .str "2.0"), ("method", .str "boom")])
    rfl).1⟩

/-- C4.  Every well-formed request carrying an id gets exactly one
response, echoing that id, with exactly one of `result` / `error`: a
`result` when the handler returns, error `-32601` when the method is
unregistered, and error `-32000` carrying the thrown message when the
handler fails. -/
theorem c4_request_response_envelope (r : Registry) (m : String) (i : Json)
    (params : Option Json) :
    ∃ resp, JsonRpcRouter.handle r ⟨.str "2.0", .str m, some i, params⟩
        = some resp
      ∧ resp.id = i
      ∧ ((∃ v, resp.result = some v) ∧ resp.error = none
          ∨ resp.result = none ∧ ∃ e, resp.error = some e)
      ∧ (r m = none → resp.error = some ⟨-32601, "Method not found"⟩)
      ∧ (∀ h v, r m = some h → h (paramsOrEmpty params) = .ok v →
          resp = okResponse i v)
      ∧ (∀ h e, r m = some h → h (paramsOrEmpty params) = .error e →
          resp = errorResponse i (-32000) e) := by
  have hstep : JsonRpcRouter.handle r ⟨.str "2.0", .str m, some i, params⟩
      = dispatchMethod r m (some i) params := rfl
  rw [hstep]
  cases hr : r m with
  | none =>
    refine ⟨errorResponse i (-32601) "Method not found", ?_, rfl,
      Or.inr ⟨rfl, _, rfl⟩, fun _ => rfl, ?_, ?_⟩
    · simp [dispatchMethod, hr]
    · intro h v hh hv; exact Option.noConfusion hh
    · intro h e hh hv; exact Option.noConfusion hh
  | some h =>
    cases hres : h (paramsOrEmpty params) with
    | ok v =>
      refine ⟨okResponse i v, ?_, rfl, Or.inl ⟨⟨v, rfl⟩, rfl⟩,
        ?_, ?_, ?_⟩
      · simp [dispatchMethod, hr, hres]
      · intro hn; exact Option.noConfusion hn
      · intro h2 v2 hh hv
        injection hh with hh2
        subst hh2
        rw [hres] at hv
        injection hv with hv2
        subst hv2
        rfl
      · intro h2 e2 hh hv
        injection hh with hh2
        subst hh2
        rw [hres] at hv
        exact Except.noConfusion hv
    | error e =>
      refine ⟨errorResponse i (-32000) e, ?_, rfl,
        Or.inr ⟨rfl, _, rfl⟩, ?_, ?_, ?_⟩
      · simp [dispatchMethod, hr, hres]
      · intro hn; exact Option.noConfusion hn
      · intro h2 v2 hh hv
        injection hh with hh2
        subst hh2
        rw [hres] at hv
        exact Except.noConfusion hv
      · intro h2 e2 hh hv
        injection hh with hh2
        subst hh2
        rw [hres] at hv
        injection hv with hv2
        subst hv2
        rfl

/-- C4 witness: the envelope property at the startup registry's `ping`
method with id 7. -/
theorem c4_request_response_envelope_witness :
    ∃ resp, JsonRpcRouter.handle
        (indexRegistry "law-mcp-server" "0.1.0" "use the tools"
          (fun _ => .ok (.obj [])) (fun _ => .ok (.obj [])))
        ⟨.str "2.0", .str "ping", some (.num 7), none⟩ = some resp
      ∧ resp.id = .num 7
      ∧ ((∃ v, resp.result = some v) ∧ resp.error = none
          ∨ resp.result = none ∧ ∃ e, resp.error = some e)
      ∧ ((indexRegistry "law-mcp-server" "0.1.0" "use the tools"
          (fun _ => .ok (.obj [])) (fun _ => .ok (.obj []))) "ping" = none →
          resp.error = some ⟨-32601, "Method not found"⟩)
      ∧ (∀ h v, (indexRegistry "law-mcp-server" "0.1.0" "use the tools"
          (fun _ => .ok (.obj [])) (fun _ => .ok (.obj []))) "ping" = some h →
          h (paramsOrEmpty none) = .ok v → resp = okResponse (.num 7) v)
      ∧ (∀ h e, (indexRegistry "law-mcp-server" "0.1.0" "use the tools"
          (fun _ => .ok (.obj [])) (fun _ => .ok (.obj []))) "ping" = some h →
          h (paramsOrEmpty none) = .error e →
          resp = errorResponse (.num 7) (-32000) e) :=
  c4_request_response_envelope _ "ping" (.num 7) none

/-- `jsonStrEq` agrees with propositional equality against a string
literal. -/
theorem jsonStrEq_eq_true_iff (j : Json) (s : String) :
    jsonStrEq j s = true ↔ j = Json.str s := by
  cases j <;> simp [jsonStrEq]

/-- `handlePost` on a body that parses delegates to `handleParsedPost`. -/
theorem handlePost_parsed (r : Registry) (sessions : String → Bool)
    (freshId : String) (body : Json) (msg : JsonRpcMessage)
    (hdr : Option String) (acceptSse : Bool)
    (hparse : parseMessage body = some msg) :
    StreamableHttpServer.handlePost r sessions freshId body hdr acceptSse
      = handleParsedPost r sessions freshId msg hdr acceptSse := by
  unfold StreamableHttpServer.handlePost
  rw [hparse]

/-- Non-`initialize` message, no session header: the 400 refusal. -/
theorem handleParsedPost_no_header (r : Registry) (sessions : String → Bool)
    (freshId : String) (msg : JsonRpcMessage) (acceptSse : Bool)
    (hb : jsonStrEq msg.method "initialize" = false) :
    handleParsedPost r sessions freshId msg none acceptSse
      = (⟨400, none,
          .json (.obj [("error", .str "mcp-session-id header is required")]),
          false⟩, sessions) := by
  simp [handleParsedPost, hb]

/-- Non-`initialize` message, header naming a dead session: the 404
refusal. -/
theorem handleParsedPost_dead_session (r : Registry)
    (sessions : String → Bool) (freshId : String) (msg : JsonRpcMessage)
    (sid : String) (acceptSse : Bool)
    (hb : jsonStrEq msg.method "initialize" = false)
    (hdead : sessions sid = false) :
    handleParsedPost r sessions freshId msg (some sid) acceptSse
      = (⟨404, none, .json (.obj [("error", .str "Session not found")]),
          false⟩, sessions) := by
  simp [handleParsedPost, hb, hdead]

/-- C5.  On the streaming transport, an authorized `POST /mcp` whose parsed
message is not an `initialize` call is refused with 400 when the
`Mcp-Session-Id` header is absent and with 404 when it names an unknown
session; in both cases no 200 is returned, the router is never invoked, and
the session registry is untouched. -/
theorem c5_post_requires_live_session (r : Registry)
    (sessions : String → Bool) (freshId : String) (body : Json)
    (msg : JsonRpcMessage) (hdr : Option String) (acceptSse : Bool)
    (hparse : parseMessage body = some msg)
    (hmeth : msg.method ≠ Json.str "initialize") :
    (hdr = none →
      (StreamableHttpServer.handlePost r sessions freshId body hdr
          acceptSse).1.status = 400
      ∧ (StreamableHttpServer.handlePost r sessions freshId body hdr
          acceptSse).1.status ≠ 200
      ∧ (StreamableHttpServer.handlePost r sessions freshId body hdr
          acceptSse).1.routerInvoked = false
      ∧ (StreamableHttpServer.handlePost r sessions freshId body hdr
          acceptSse).2 = sessions)
    ∧ (∀ sid, hdr = some sid → sessions sid = false →
      (StreamableHttpServer.handlePost r sessions freshId body hdr
          acceptSse).1.status = 404
      ∧ (StreamableHttpServer.handlePost r sessions freshId body hdr
          acceptSse).1.status ≠ 200
      ∧ (StreamableHttpServer.handlePost r sessions freshId body hdr
          acceptSse).1.routerInvoked = false
      ∧ (StreamableHttpServer.handlePost r sessions freshId body hdr
          acceptSse).2 = sessions) := by
  have hb : jsonStrEq msg.method "initialize" = false := by
    rw [← Bool.not_eq_true, jsonStrEq_eq_true_iff]
    exact hmeth
  constructor
  · intro hnone
    subst hnone
    rw [handlePost_parsed r sessions freshId body msg none acceptSse hparse,
      handleParsedPost_no_header r sessions freshId msg acceptSse hb]
    exact ⟨rfl, by simp, rfl, rfl⟩
  · intro sid hsid hdead
    subst hsid
    rw [handlePost_parsed r sessions freshId body msg (some sid) acceptSse
        hparse,
      handleParsedPost_dead_session r sessions freshId msg sid acceptSse hb
        hdead]
    exact ⟨rfl, by simp, rfl, rfl⟩

/-- C5 witness: a `tools/list` POST with no header (400) and with a stale
header (404) on an empty session registry. -/
theorem c5_post_requires_live_session_witness :
    ((StreamableHttpServer.handlePost Registry.empty (fun _ => false) "S1"
        (.obj [("jsonrpc", .str "2.0"), ("method", .str "tools/list"),
          ("id", .num 2)]) none false).1.status = 400
      ∧ (StreamableHttpServer.handlePost Registry.empty (fun _ => false) "S1"
        (.obj [("jsonrpc", .str "2.0"), ("method", .str "tools/list"),
          ("id", .num 2)]) none false).1.routerInvoked = false)
    ∧ ((StreamableHttpServer.handlePost Registry.empty (fun _ => false) "S1"
        (.obj [("jsonrpc", .str "2.0"), ("method", .str "tools/list"),
          ("id", .num 2)]) (some "stale") false).1.status = 404
      ∧ (StreamableHttpServer.handlePost Registry.empty (fun _ => false) "S1"
        (.obj [("jsonrpc", .str "2.0"), ("method", .str "tools/list"),
          ("id", .num 2)]) (some "stale") false).1.routerInvoked = false) := by
  have h0 := c5_post_requires_live_session Registry.empty (fun _ => false)
    "S1" (.obj [("jsonrpc", .str "2.0"), ("method", .str "tools/list"),
      ("id", .num 2)])
    ⟨.str "2.0", .str "tools/list", some (.num 2), none⟩ none false rfl
    (by simp)
  have h1 := c5_post_requires_live_session Registry.empty (fun _ => false)
    "S1" (.obj [("jsonrpc", .str "2.0"), ("method", .str "tools/list"),
      ("id", .num 2)])
    ⟨.str "2.0", .str "tools/list", some (.num 2), none⟩ (some "stale") false
    rfl (by simp)
  have ha := h0.1 rfl
  have hb := h1.2 "stale" rfl rfl
  exact ⟨⟨ha.1, ha.2.2.1⟩, ⟨hb.1, hb.2.2.1⟩⟩

/-- The one-call computation behind C6: with a stored, unexpired code whose
redirect URI, client id, PKCE verifier and (when applicable) client secret
all check out, `exchangeToken` issues a token and deletes the code. -/
theorem exchangeToken_success (prims : JsPrimitives)
    (opts : OAuthServerOptions) (st : OAuthState) (body : TokenRequest)
    (c : String) (entry : PendingCode) (now : Int)
    (hgrant : body.grant_type = some "authorization_code")
    (hbcode : body.code = some c)
    (hstored : st.codes c = some entry)
    (hfresh : now ≤ entry.expiresAt)
    (hredir : entry.redirectUri = body.redirect_uri)
    (hcid : entry.clientId = some (body.client_id.getD ""))
    (hpkce : verifyPkce prims (body.code_verifier.getD "")
      entry.codeChallenge entry.codeChallengeMethod = true)
    (hsecret : ∀ client, st.clients (body.client_id.getD "") = some client →
      body.client_secret.getD "" = ""
        ∨ client.clientSecret = body.client_secret.getD "") :
    exchangeToken prims opts st body none now
      = (.token (issueToken prims opts (body.client_id.getD "") (now / 1000))
          "Bearer" 3600, st.deleteCode body.code) := by
  have hnotgt : ¬ (now > entry.expiresAt) := not_lt.mpr hfresh
  cases hcl : st.clients (body.client_id.getD "") with
  | none =>
    simp [exchangeToken, hgrant, hbcode, hstored, hnotgt, hredir, hcid,
      hpkce, hcl]
  | some client =>
    rcases hsecret client hcl with h1 | h2
    · simp [exchangeToken, hgrant, hbcode, hstored, hnotgt, hredir, hcid,
        hpkce, hcl, h1]
    · simp [exchangeToken, hgrant, hbcode, hstored, hnotgt, hredir, hcid,
        hpkce, hcl, h2]

/-- C6.  A valid redemption succeeds and deletes the code, so any second
`exchangeToken` call presenting the same code — whatever its credentials,
header or time — fails with `invalid_grant`; an expired code is likewise
deleted the moment its expiry is detected. -/
theorem c6_authorization_code_single_use (prims : JsPrimitives)
    (opts : OAuthServerOptions) (st : OAuthState) (body : TokenRequest)
    (c : String) (entry : PendingCode) (now : Int)
    (hgrant : body.grant_type = some "authorization_code")
    (hbcode : body.code = some c)
    (hstored : st.codes c = some entry)
    (hfresh : now ≤ entry.expiresAt)
    (hredir : entry.redirectUri = body.redirect_uri)
    (hcid : entry.clientId = some (body.client_id.getD ""))
    (hpkce : verifyPkce prims (body.code_verifier.getD "")
      entry.codeChallenge entry.codeChallengeMethod = true)
    (hsecret : ∀ client, st.clients (body.client_id.getD "") = some client →
      body.client_secret.getD "" = ""
        ∨ client.clientSecret = body.client_secret.getD "") :
    (∃ tok, (exchangeToken prims opts st body none now).1
      = .token tok "Bearer" 3600)
    ∧ (exchangeToken prims opts st body none now).2.codes c = none
    ∧ (∀ (body2 : TokenRequest) (ah2 : Option String) (now2 : Int),
        body2.grant_type = some "authorization_code" →
        body2.code = some c →
        (exchangeToken prims opts (exchangeToken prims opts st body none
          now).2 body2 ah2 now2).1 = .err "invalid_grant")
    ∧ (∀ now3 : Int, now3 > entry.expiresAt →
        (exchangeToken prims opts st body none now3).1 = .err "invalid_grant"
        ∧ (exchangeToken prims opts st body none now3).2.codes c = none) := by
  have key := exchangeToken_success prims opts st body c entry now hgrant
    hbcode hstored hfresh hredir hcid hpkce hsecret
  have hdel : (st.deleteCode body.code).codes c = none := by
    rw [hbcode]
    simp [OAuthState.deleteCode]
  refine ⟨⟨_, by rw [key]⟩, by rw [key]; exact hdel, ?_, ?_⟩
  · intro body2 ah2 now2 hg2 hc2
    rw [key]
    simp [exchangeToken, hg2, hc2, hdel]
  · intro now3 hlate
    constructor
    · simp [exchangeToken, hgrant, hbcode, hstored, hlate]
    · simp [exchangeToken, hgrant, hbcode, hstored, hlate,
        OAuthState.deleteCode]

/-- C6 witness: a concrete client-less redemption with dummy crypto
primitives, exercised at the stored code `CODE`. -/
theorem c6_authorization_code_single_use_witness :
    (∃ tok, (exchangeToken
      ⟨fun v => "#" ++ v, fun _ _ => "sig", id, id, id, fun _ => "",
        fun _ => none, fun _ _ => none⟩
      ⟨"http://iss", "key"⟩
      ⟨fun _ => none, fun x => if x = "CODE" then
        some ⟨some "cid", some "http://localhost/cb", some "#ver", "S256",
          1000⟩ else none⟩
      ⟨some "authorization_code", some "CODE", some "http://localhost/cb",
        some "cid", none, some "ver"⟩
      none 500).1 = .token tok "Bearer" 3600)
    ∧ (exchangeToken
      ⟨fun v => "#" ++ v, fun _ _ => "sig", id, id, id, fun _ => "",
        fun _ => none, fun _ _ => none⟩
      ⟨"http://iss", "key"⟩
      ⟨fun _ => none, fun x => if x = "CODE" then
        some ⟨some "cid", some "http://localhost/cb", some "#ver", "S256",
          1000⟩ else none⟩
      ⟨some "authorization_code", some "CODE", some "http://localhost/cb",
        some "cid", none, some "ver"⟩
      none 500).2.codes "CODE" = none := by
  have h := c6_authorization_code_single_use
    ⟨fun v => "#" ++ v, fun _ _ => "sig", id, id, id, fun _ => "",
      fun _ => none, fun _ _ => none⟩
    ⟨"http://iss", "key"⟩
    ⟨fun _ => none, fun x => if x = "CODE" then
      some ⟨some "cid", some "http://localhost/cb", some "#ver", "S256",
        1000⟩ else none⟩
    ⟨some "authorization_code", some "CODE", some "http://localhost/cb",
      some "cid", none, some "ver"⟩
    "CODE"
    ⟨some "cid", some "http://localhost/cb", some "#ver", "S256", 1000⟩
    500 rfl rfl (by simp) (by norm_num) rfl rfl (by simp [verifyPkce])
    (fun client hcl => by simp at hcl)
  exact ⟨h.1, h.2.1⟩

/-- C7.  A three-part token whose HMAC verifies under the shared API key but
whose payload carries a numeric `exp` earlier than the current time is
rejected by `validateToken` — the expiry check runs before (and regardless
of) the audience check. -/
theorem c7_expired_token_rejected (prims : JsPrimitives)
    (opts : OAuthServerOptions) (token h b s : String) (payload : Json)
    (e nowSec : Int)
    (hsplit : jsSplitChar '.' token = [h, b, s])
    (hsig : s = prims.hmacSha256Base64url opts.apiKey (h ++ "." ++ b))
    (hparse : prims.jsonParse (prims.base64urlDecode b) = some payload)
    (hexp : payload.getProp "exp" = some (.num e))
    (hlt : e < nowSec) :
    validateToken prims opts token nowSec = false := by
  subst hsig
  unfold validateToken verifyJwt
  rw [hsplit]
  cases payload with
  | null => simp [Json.getProp] at hexp
  | bool bb => simp [Json.getProp] at hexp
  | num n => simp [Json.getProp] at hexp
  | str t => simp [Json.getProp] at hexp
  | arr xs => simp [Json.getProp] at hexp
  | obj fs => simp [hparse, hexp, hlt]

/-- C7 witness: dummy primitives whose parser yields `{exp: 0}`, checked at
time 1. -/
theorem c7_expired_token_rejected_witness :
    validateToken
      ⟨id, fun _ _ => "SIG", id, id, id, fun _ => "",
        fun _ => some (.obj [("exp", .num 0)]), fun _ _ => none⟩
      ⟨"http://iss", "key"⟩ "h.b.SIG" 1 = false :=
  c7_expired_token_rejected
    ⟨id, fun _ _ => "SIG", id, id, id, fun _ => "",
      fun _ => some (.obj [("exp", .num 0)]), fun _ _ => none⟩
    ⟨"http://iss", "key"⟩ "h.b.SIG" "h" "b" "SIG"
    (.obj [("exp", .num 0)]) 0 1 (by decide) rfl rfl (by simp [Json.getProp])
    (by norm_num)

/-- C8.  Submitting the authorization form with an `api_key` different from
the configured secret yields the error result — rendered by the transport
as a 400 `text/html` page — and returns the state unchanged: no code entry
is created, modified or removed. -/
theorem c8_wrong_api_key_leaves_codes_untouched (prims : JsPrimitives)
    (opts : OAuthServerOptions) (st : OAuthState) (form : AuthForm)
    (newCode : String) (now : Int)
    (hkey : form.api_key ≠ some opts.apiKey) :
    processAuthorize prims opts st form newCode now
      = (.err "API キーが正しくありません" { form with api_key := some "" },
          st)
    ∧ authorizePostReply
        (processAuthorize prims opts st form newCode now).1
      = some (400, "text/html; charset=utf-8") := by
  have h1 : processAuthorize prims opts st form newCode now
      = (.err "API キーが正しくありません" { form with api_key := some "" },
          st) := by
    simp [processAuthorize, hkey]
  exact ⟨h1, by rw [h1]; rfl⟩

/-- C8 witness: a form carrying the wrong key against a server whose key is
`"key"`. -/
theorem c8_wrong_api_key_leaves_codes_untouched_witness :
    processAuthorize
      ⟨id, fun _ _ => "", id, id, id, fun _ => "", fun _ => none,
        fun _ _ => none⟩
      ⟨"http://iss", "key"⟩ ⟨fun _ => none, fun _ => none⟩
      ⟨some "wrong", some "cid", some "http://localhost/cb", none, none,
        none⟩ "CODE" 0
      = (.err "API キーが正しくありません"
          ⟨some "", some "cid", some "http://localhost/cb", none, none,
            none⟩, ⟨fun _ => none, fun _ => none⟩)
    ∧ authorizePostReply
        (processAuthorize
          ⟨id, fun _ _ => "", id, id, id, fun _ => "", fun _ => none,
            fun _ _ => none⟩
          ⟨"http://iss", "key"⟩ ⟨fun _ => none, fun _ => none⟩
          ⟨some "wrong", some "cid", some "http://localhost/cb", none, none,
            none⟩ "CODE" 0).1
      = some (400, "text/html; charset=utf-8") :=
  c8_wrong_api_key_leaves_codes_untouched
    ⟨id, fun _ _ => "", id, id, id, fun _ => "", fun _ => none,
      fun _ _ => none⟩
    ⟨"http://iss", "key"⟩ ⟨fun _ => none, fun _ => none⟩
    ⟨some "wrong", some "cid", some "http://localhost/cb", none, none, none⟩
    "CODE" 0 (by simp)

/-- C9.  A three-part token whose signature verifies and whose payload's
`aud` equals `issuer ++ "/mcp"` but carries no numeric `exp` (absent, or
present with a non-number value) validates at every point in time: such a
token never expires. -/
theorem c9_token_without_numeric_exp_never_expires (prims : JsPrimitives)
    (opts : OAuthServerOptions) (token h b s : String)
    (fs : List (String × Json))
    (hsplit : jsSplitChar '.' token = [h, b, s])
    (hsig : s = prims.hmacSha256Base64url opts.apiKey (h ++ "." ++ b))
    (hparse : prims.jsonParse (prims.base64urlDecode b) = some (.obj fs))
    (haud : (Json.obj fs).getProp "aud"
      = some (.str (opts.issuerUrl ++ "/mcp")))
    (hexp : ∀ v, (Json.obj fs).getProp "exp" = some v → v.isNum = false) :
    ∀ nowSec : Int, validateToken prims opts token nowSec = true := by
  intro nowSec
  subst hsig
  unfold validateToken verifyJwt
  rw [hsplit]
  cases hx : (Json.obj fs).getProp "exp" with
  | none => simp [hparse, hx, haud]
  | some v =>
    have hv := hexp v hx
    cases v with
    | num n => simp [Json.isNum] at hv
    | null => simp [hparse, hx, haud]
    | bool bb => simp [hparse, hx, haud]
    | str t => simp [hparse, hx, haud]
    | arr xs => simp [hparse, hx, haud]
    | obj gs => simp [hparse, hx, haud]

/-- C9 witness: a token whose payload has the right audience and a string
`exp`, accepted at two widely separated times. -/
theorem c9_token_without_numeric_exp_never_expires_witness :
    validateToken
      ⟨id, fun _ _ => "SIG", id, id, id, fun _ => "",
        fun _ => some (.obj [("aud", .str "http://iss/mcp"),
          ("exp", .str "soon")]), fun _ _ => none⟩
      ⟨"http://iss", "key"⟩ "h.b.SIG" 0 = true
    ∧ validateToken
      ⟨id, fun _ _ => "SIG", id, id, id, fun _ => "",
        fun _ => some (.obj [("aud", .str "http://iss/mcp"),
          ("exp", .str "soon")]), fun _ _ => none⟩
      ⟨"http://iss", "key"⟩ "h.b.SIG" 99999999999 = true := by
  have h := c9_token_without_numeric_exp_never_expires
    ⟨id, fun _ _ => "SIG", id, id, id, fun _ => "",
      fun _ => some (.obj [("aud", .str "http://iss/mcp"),
        ("exp", .str "soon")]), fun _ _ => none⟩
    ⟨"http://iss", "key"⟩ "h.b.SIG" "h" "b" "SIG"
    [("aud", .str "http://iss/mcp"), ("exp", .str "soon")]
    (by decide) rfl rfl (by simp [Json.getProp])
    (by
      intro v hv
      have hx : (Json.obj [("aud", Json.str "http://iss/mcp"),
          ("exp", Json.str "soon")]).getProp "exp"
          = some (Json.str "soon") := rfl
      rw [hx] at hv
      injection hv with hv2
      rw [← hv2]
      rfl)
  exact ⟨h 0, h 99999999999⟩

/-- C10.  With the correct `api_key` and a dynamically registered
`client_id`, `processAuthorize` stores a fresh code recording whatever
`redirect_uri` the form submitted — for every submitted value and every
`redirectUris` list stored at registration (the two are never compared) —
and touches no other entry of the code store. -/
theorem c10_redirect_uri_never_checked (prims : JsPrimitives)
    (opts : OAuthServerOptions) (st : OAuthState) (form : AuthForm)
    (newCode : String) (now : Int) (cid : String)
    (client : RegisteredClient)
    (hkey : form.api_key = some opts.apiKey)
    (hcid : form.client_id = some cid)
    (hclient : st.clients cid = some client) :
    (processAuthorize prims opts st form newCode now).2.codes newCode
      = some ⟨form.client_id, form.redirect_uri, form.code_challenge,
          form.code_challenge_method.getD "S256", now + 10 * 60 * 1000⟩
    ∧ ∀ other, other ≠ newCode →
        (processAuthorize prims opts st form newCode now).2.codes other
          = st.codes other := by
  have hbind : form.client_id.bind st.clients = some client := by
    rw [hcid]; exact hclient
  have hstate : (processAuthorize prims opts st form newCode now).2
      = st.setCode newCode
          ⟨form.client_id, form.redirect_uri, form.code_challenge,
            form.code_challenge_method.getD "S256", now + 10 * 60 * 1000⟩ := by
    cases hru : form.redirect_uri with
    | none => simp [processAuthorize, hkey, hbind, hru]
    | some uri =>
      simp only [processAuthorize, hkey, hbind, hru]
      simp
      split <;> rfl
  constructor
  · rw [hstate]; simp [OAuthState.setCode]
  · intro other hother
    rw [hstate]
    simp [OAuthState.setCode, hother]

/-- C10 witness: a registered client whose `redirectUris` is
`["https://registered.example/cb"]` still gets a code minted for the
unrelated submitted `redirect_uri` `"ftp://elsewhere"`. -/
theorem c10_redirect_uri_never_checked_witness :
    (processAuthorize
      ⟨id, fun _ _ => "", id, id, id, fun _ => "", fun _ => none,
        fun _ _ => none⟩
      ⟨"http://iss", "key"⟩
      ⟨fun x => if x = "cid" then
          some ⟨"cid", "secret", ["https://registered.example/cb"]⟩
        else none, fun _ => none⟩
      ⟨some "key", some "cid", some "ftp://elsewhere", none, some "chal",
        none⟩ "CODE" 0).2.codes "CODE"
      = some ⟨some "cid", some "ftp://elsewhere", some "chal", "S256",
          600000⟩ := by
  have h := c10_redirect_uri_never_checked
    ⟨id, fun _ _ => "", id, id, id, fun _ => "", fun _ => none,
      fun _ _ => none⟩
    ⟨"http://iss", "key"⟩
    ⟨fun x => if x = "cid" then
        some ⟨"cid", "secret", ["https://registered.example/cb"]⟩
      else none, fun _ => none⟩
    ⟨some "key", some "cid", some "ftp://elsewhere", none, some "chal",
      none⟩ "CODE" 0 "cid"
    ⟨"cid", "secret", ["https://registered.example/cb"]⟩
    rfl rfl (by simp)
  simpa using h.1

end LawMcp
